import Mathlib

/-!
Shallow embedding of the AdGuard anti-banner service
(src/Extension/lib/filter/antibanner.js): the debounced filter-event
batcher, the per-filter rule persistence, the request-filter (engine)
rebuild pipeline and the start/stop lifecycle guard.
-/

namespace AntiBanner

/-- Modelled from the spec: the Engine Handle (the RequestFilter class lives
in request-filter.js, outside the analysed sources) carries a rule count; a
freshly constructed RequestFilter is empty (ruleCount = 0). -/
structure RequestFilter where
  rulesCount : Nat
deriving DecidableEq

/-- The listener event kinds the anti-banner service matches on
(antibanner.js 60-81 and 572-593). -/
inductive EventKind
  | UPDATE_FILTER_RULES
  | ADD_RULES
  | REMOVE_RULE
  | FILTER_ENABLE_DISABLE
  | FILTER_GROUP_ENABLE_DISABLE
  | UPDATE_USER_FILTER_RULES
deriving DecidableEq

/-- A pending event pushed by processFilterEvent / processGroupEvent
(antibanner.js 552-570): the event kind, the carried filter's filterId
(none for group events, whose records carry no filter field), and the rule
payload (empty when the event carries none). -/
structure FilterEvent where
  event : EventKind
  filter : Option Nat
  rules : List String
deriving DecidableEq

/-- UPDATE_REQUEST_FILTER_EVENTS (antibanner.js 60-65): the events which
cause RequestFilter re-creation. -/
def UPDATE_REQUEST_FILTER_EVENTS : List EventKind :=
  [.UPDATE_FILTER_RULES, .FILTER_ENABLE_DISABLE, .FILTER_GROUP_ENABLE_DISABLE,
   .UPDATE_USER_FILTER_RULES]

/-- isUpdateRequestFilterEvent (antibanner.js 67): indexOf >= 0 on the list
above is membership. -/
def isUpdateRequestFilterEvent (el : FilterEvent) : Bool :=
  UPDATE_REQUEST_FILTER_EVENTS.contains el.event

/-- SAVE_FILTER_RULES_TO_STORAGE_EVENTS (antibanner.js 73-77): the events
which cause saving filter rules to the rules storage. -/
def SAVE_FILTER_RULES_TO_STORAGE_EVENTS : List EventKind :=
  [.UPDATE_FILTER_RULES, .ADD_RULES, .REMOVE_RULE]

/-- isSaveRulesToStorageEvent (antibanner.js 79-81). -/
def isSaveRulesToStorageEvent (el : FilterEvent) : Bool :=
  SAVE_FILTER_RULES_TO_STORAGE_EVENTS.contains el.event

/-- Modelled from the spec: utils.collections.removeAll (utils/common.js is
not among the analysed sources) deletes all exact-text matches of the given
rule from the list. -/
def removeAll (collection : List String) (element : String) : List String :=
  collection.filter (fun r => r != element)

/-- One iteration of the event loop of processSaveFilterRulesToStorageEvents
(antibanner.js 612-630): ADD_RULES appends the event's rules, REMOVE_RULE
deletes all exact matches of the event's first rule, UPDATE_FILTER_RULES
replaces the whole list, and any other event kind changes nothing. -/
def applyFilterEvent (loadedRulesText : List String) (e : FilterEvent) : List String :=
  match e.event with
  | .ADD_RULES => loadedRulesText ++ e.rules
  | .REMOVE_RULE =>
    match e.rules.head? with
    | some actionRule => removeAll loadedRulesText actionRule
    | none => loadedRulesText
  | .UPDATE_FILTER_RULES => e.rules
  | _ => loadedRulesText

/-- The loop of processSaveFilterRulesToStorageEvents (antibanner.js
607-631): the per-iteration null coalescing (a missing stored list becomes
the empty list once any event is processed) folded over the events in
arrival order. -/
def processSaveLoop (loadedRulesText : Option (List String)) (events : List FilterEvent) :
    Option (List String) :=
  events.foldl (fun acc e => some (applyFilterEvent (acc.getD []) e)) loadedRulesText

/-- processSaveFilterRulesToStorageEvents (antibanner.js 603-649): one
storage read feeds the event loop, the looped result is converted once
(TSUrlFilter.RuleConverter.convertRules is the external capability conv,
applied to the newline-joined text, the result split back on newlines) and
written back once. The result is the single written value; none models the
source faulting on joining a value never coalesced to a list (no event and
nothing stored). -/
def processSaveFilterRulesToStorageEvents (conv : String → String)
    (stored : Option (List String)) (events : List FilterEvent) : Option (List String) :=
  match processSaveLoop stored events with
  | some loadedRulesText =>
    some ((conv (String.intercalate "\n" loadedRulesText)).splitOn "\n")
  | none => none

/-- Stated from the spec's words, for comparison with the source embedding:
the final persisted content is the sequential application of the events in
arrival order to the stored rules, normalized (converted) exactly once at
the end. -/
def specSequentialPersist (conv : String → String) (stored : Option (List String))
    (events : List FilterEvent) : List String :=
  (conv (String.intercalate "\n" (events.foldl applyFilterEvent (stored.getD [])))).splitOn "\n"

/-- The eventsByFilter update of processEventsHistory (antibanner.js
527-530): push the event onto the entry for its filterId, creating the entry
on first sight. -/
def pushEventByFilter : List (Nat × List FilterEvent) → Nat → FilterEvent →
    List (Nat × List FilterEvent)
  | [], fid, e => [(fid, [e])]
  | (k, es) :: rest, fid, e =>
    if k = fid then (k, es ++ [e]) :: rest
    else (k, es) :: pushEventByFilter rest fid e

/-- The split-by-filterId loop of processEventsHistory (antibanner.js
519-531), folded from an accumulator: events carrying no filter (group
events) are skipped. -/
def byFilterFold (m : List (Nat × List FilterEvent)) (filterEvents : List FilterEvent) :
    List (Nat × List FilterEvent) :=
  filterEvents.foldl
    (fun acc fe =>
      match fe.filter with
      | none => acc
      | some fid => pushEventByFilter acc fid fe)
    m

/-- eventsByFilter as processEventsHistory builds it, starting empty. -/
def eventsByFilter (filterEvents : List FilterEvent) : List (Nat × List FilterEvent) :=
  byFilterFold [] filterEvents

/-- Association-list reading of the per-filter event groups. -/
def lookupEvents (m : List (Nat × List FilterEvent)) (fid : Nat) : Option (List FilterEvent) :=
  (m.find? (fun p => p.1 == fid)).map (fun p => p.2)

/-- Keys of the per-filter event groups. -/
def keysOf (m : List (Nat × List FilterEvent)) : List Nat :=
  m.map Prod.fst

/-- The observable outcome of one processEventsHistory run: the per-filter
event groups handed to storage persistence, whether createRequestFilter is
scheduled once all persistence settles, and whether the
REQUEST_FILTER_UPDATED notification fires immediately instead (the engine
handle left untouched). -/
structure BatchOutcome where
  savedFilters : List (Nat × List FilterEvent)
  rebuildAfterPersistence : Bool
  notifiedWithoutRebuild : Bool
deriving DecidableEq

/-- processEventsHistory (antibanner.js 512-550): classify the batch, group
events by filter id, persist every filter group holding at least one
storage-mutating event, then either chain createRequestFilter after all the
persistence promises (when some event re-creates the request filter) or
notify listeners at once without touching the engine. -/
def processEventsHistory (filterEvents : List FilterEvent) : BatchOutcome :=
  let needCreateRequestFilter := filterEvents.any isUpdateRequestFilterEvent
  { savedFilters :=
      (eventsByFilter filterEvents).filter (fun p => p.2.any isSaveRulesToStorageEvent)
    rebuildAfterPersistence := needCreateRequestFilter
    notifiedWithoutRebuild := !needCreateRequestFilter }

/-- The mutable module state of the service (antibanner.js 37-46, 83). -/
structure AntiBannerState where
  requestFilter : RequestFilter
  applicationRunning : Bool
  applicationInitialized : Bool
  reloadedRules : Bool
  requestFilterInitTime : Nat
deriving DecidableEq

/-- getRequestFilter (antibanner.js 196-198). -/
def getRequestFilter (st : AntiBannerState) : RequestFilter :=
  st.requestFilter

/-- getRequestFilterInfo (antibanner.js 491-499): the rule count of the
current request filter. -/
def getRequestFilterInfo (st : AntiBannerState) : Nat :=
  st.requestFilter.rulesCount

/-- Observable side effects of the lifecycle operations: a completion
callback firing, the one-time initialization path of start() running, a
createRequestFilter rebuild being invoked, and the REQUEST_FILTER_UPDATED
notification with its rule count. -/
inductive LifeAction
  | callbackFired
  | initRun
  | rebuildRun
  | notifyRequestFilterUpdated (rulesCount : Nat)
deriving DecidableEq

/-- start (antibanner.js 160-174): while already running only the callback
fires and nothing else happens; otherwise the running flag is set and either
the one-time initialization runs (first start in the process lifetime, the
callback handed into it) or createRequestFilter is invoked with the
callback. -/
def start (st : AntiBannerState) : AntiBannerState × List LifeAction :=
  if st.applicationRunning = true then (st, [.callbackFired])
  else
    let st1 := { st with applicationRunning := true }
    if st1.applicationInitialized = false then
      ({ st1 with applicationInitialized := true }, [.initRun])
    else
      (st1, [.rebuildRun])

/-- stop (antibanner.js 179-183): clear the running flag, replace the
request filter with a freshly constructed (empty) one and notify listeners
with the new request filter info. -/
def stop (st : AntiBannerState) : AntiBannerState × List LifeAction :=
  let st1 := { st with applicationRunning := false, requestFilter := { rulesCount := 0 } }
  (st1, [.notifyRequestFilterUpdated (getRequestFilterInfo st1)])

/-- External lifecycle calls. -/
inductive LifeOp
  | startOp
  | stopOp
deriving DecidableEq

/-- One lifecycle call dispatched on the current state. -/
def lifeStep (st : AntiBannerState) : LifeOp → AntiBannerState × List LifeAction
  | .startOp => start st
  | .stopOp => stop st

/-- A sequence of lifecycle calls with the emitted actions concatenated in
order. -/
def runLife (st : AntiBannerState) : List LifeOp → AntiBannerState × List LifeAction
  | [] => (st, [])
  | op :: ops =>
    let r1 := lifeStep st op
    let r2 := runLife r1.1 ops
    (r2.1, r1.2 ++ r2.2)

/-- A subscription filter as the rebuild reads it: identifier, owning group
and enabled flag (the further metadata fields play no part here). -/
structure Filter where
  filterId : Nat
  groupId : Nat
  enabled : Bool
deriving DecidableEq

/-- A filter group: identifier and enabled flag. -/
structure Group where
  groupId : Nat
  enabled : Bool
deriving DecidableEq

/-- Modelled from the spec: the user filter's special identifier
(utils.filters.USER_FILTER_ID; utils/common.js is not among the analysed
sources) — the user list is persisted under a dedicated identifier with no
group gating. -/
def USER_FILTER_ID : Nat := 0

/-- loadFilterRules, STEP 1 of createRequestFilter (antibanner.js 468-483):
the identifiers whose rule text is read from the rules storage — every
subscription filter with filter.enabled and its group enabled, then the
user filter unconditionally. getGroup stands for subscriptions.getGroup
(the subscription registry is an external collaborator; modelled from the
spec as a total catalog lookup by groupId). All the reads are gathered and
awaited together before the rebuild proceeds. -/
def loadFilterRulesIds (filters : List Filter) (getGroup : Nat → Group) : List Nat :=
  (filters.filter (fun f => f.enabled && (getGroup f.groupId).enabled)).map
    (fun f => f.filterId) ++ [USER_FILTER_ID]

/-- loadFilterRulesFromStorage (antibanner.js 456-463) over all gathered
identifiers: a read that yields nothing adds no entry to the rules map. -/
def buildRulesFilterMap (store : Nat → Option (List String)) (ids : List Nat) :
    List (Nat × List String) :=
  ids.filterMap (fun fid => (store fid).map (fun rulesText => (fid, rulesText)))

/-- isEmptyRulesFilterMap (antibanner.js 338-354): true when no filter was
loaded at all, or when only the user filter was and it holds no rules. -/
def isEmptyRulesFilterMap (rulesFilterMap : List (Nat × List String)) : Bool :=
  match rulesFilterMap with
  | [] => true
  | [(fid, userRules)] => fid == USER_FILTER_ID && userRules.isEmpty
  | _ => false

/-- The rule lists built by startTSUrlfilterEngine (antibanner.js 396-408):
each loaded filter contributes (filterId, its rules joined by newline, the
ignore-unsafe flag, which is the negation of subscriptions.isTrustedFilter). -/
def buildEngineLists (isTrustedFilter : Nat → Bool) (rulesFilterMap : List (Nat × List String)) :
    List (Nat × String × Bool) :=
  rulesFilterMap.map (fun p => (p.1, String.intercalate "\n" p.2, !(isTrustedFilter p.1)))

/-- Observable outcome of requestFilterInitialized: the request filter
swapped in, whether the callback fired, the rule count carried by the
REQUEST_FILTER_UPDATED notification (which always fires there), whether the
forced filter reload was triggered, and the reloadedRules flag afterwards. -/
structure InitOutcome where
  requestFilter : RequestFilter
  callbackFired : Bool
  notifiedRulesCount : Nat
  reloadTriggered : Bool
  reloadedRulesAfter : Bool
deriving DecidableEq

/-- requestFilterInitialized, STEP 3 of the rebuild (antibanner.js 360-391):
swap in the new filter, invoke the callback, notify REQUEST_FILTER_UPDATED
with the new count — then, only when the loaded rules map is NOT empty:
trigger the one-shot forced reload when the compiled count is zero and the
reloadedRules flag is unset, or clear the flag when rules reappeared. When
the map is empty the function returns right after the notification. -/
def requestFilterInitialized (rulesFilterMap : List (Nat × List String)) (newRulesCount : Nat)
    (reloadedRules : Bool) (hasCallback : Bool) : InitOutcome :=
  let base : InitOutcome :=
    { requestFilter := { rulesCount := newRulesCount }
      callbackFired := hasCallback
      notifiedRulesCount := newRulesCount
      reloadTriggered := false
      reloadedRulesAfter := reloadedRules }
  if isEmptyRulesFilterMap rulesFilterMap = true then base
  else if newRulesCount = 0 ∧ reloadedRules = false then
    { base with reloadTriggered := true, reloadedRulesAfter := true }
  else if 0 < newRulesCount ∧ reloadedRules = true then
    { base with reloadedRulesAfter := false }
  else base

/-- Observable outcome of one onFiltersLoadedFromStorage run: the lists the
compiled-engine capability was started with (some = engine.startEngine was
invoked; the source has no bypass around that call), and the
requestFilterInitialized outcome. -/
structure RebuildOutcome where
  engineListsStarted : Option (List (Nat × String × Bool))
  outcome : InitOutcome
deriving DecidableEq

/-- onFiltersLoadedFromStorage together with startTSUrlfilterEngine
(antibanner.js 320-416), over a total compiled-engine capability:
the engine is always started on the built lists, then
requestFilterInitialized runs on the rule count the engine reports
(rulesCountOf, standing for newRequestFilter.getRulesCount() after
engine.startEngine). -/
def onFiltersLoadedFromStorage (isTrustedFilter : Nat → Bool)
    (rulesCountOf : List (Nat × String × Bool) → Nat)
    (rulesFilterMap : List (Nat × List String)) (reloadedRules : Bool) (hasCallback : Bool) :
    RebuildOutcome :=
  let lists := buildEngineLists isTrustedFilter rulesFilterMap
  { engineListsStarted := some lists
    outcome := requestFilterInitialized rulesFilterMap (rulesCountOf lists) reloadedRules hasCallback }

/-- All storage reads of a rebuild gathered as Promise.all gathers them
(antibanner.js 469-482): the first failing read fails the whole batch and
nothing after it runs; a read yielding nothing contributes no entry. -/
def readAll (store : Nat → Except String (Option (List String))) :
    List Nat → Except String (List (Nat × List String))
  | [] => Except.ok []
  | fid :: rest =>
    match store fid with
    | .error e => .error e
    | .ok r =>
      match readAll store rest with
      | .error e => .error e
      | .ok m =>
        .ok (match r with
          | some rulesText => (fid, rulesText) :: m
          | none => m)

/-- Observable outcome of one createRequestFilter run over fallible
collaborators: the state afterwards, whether a given callback fired, which
identifiers were read from storage, how many engine compilations were
attempted, and the failure (none = the run completed). -/
structure RunOutcome where
  state : AntiBannerState
  callbackFired : Bool
  storageReads : List Nat
  compileAttempts : Nat
  failed : Option String
deriving DecidableEq

/-- createRequestFilter (antibanner.js 424-486) composed with
onFiltersLoadedFromStorage, over fallible storage reads and a fallible
compiled-engine capability. The stopped-state guard (lines 425-430) returns
at once, firing only the callback. A failing read aborts before any
compilation; a failing compilation aborts before requestFilterInitialized,
so only a fully successful run replaces the request filter; nothing
retries. The first-initialization timestamp is set (to a nonzero instant,
modelled as 1) after the reads and before the compilation, as in the
source. -/
def createRequestFilterRun (st : AntiBannerState) (filters : List Filter)
    (getGroup : Nat → Group) (store : Nat → Except String (Option (List String)))
    (isTrustedFilter : Nat → Bool)
    (startEngine : List (Nat × String × Bool) → Except String Nat)
    (hasCallback : Bool) : RunOutcome :=
  if st.applicationRunning = false then
    { state := st, callbackFired := hasCallback, storageReads := []
      compileAttempts := 0, failed := none }
  else
    let ids := loadFilterRulesIds filters getGroup
    match readAll store ids with
    | .error e =>
      { state := st, callbackFired := false, storageReads := ids
        compileAttempts := 0, failed := some e }
    | .ok rulesFilterMap =>
      let st1 :=
        if st.requestFilterInitTime = 0 then { st with requestFilterInitTime := 1 } else st
      match startEngine (buildEngineLists isTrustedFilter rulesFilterMap) with
      | .error e =>
        { state := st1, callbackFired := false, storageReads := ids
          compileAttempts := 1, failed := some e }
      | .ok newRulesCount =>
        let out := requestFilterInitialized rulesFilterMap newRulesCount st1.reloadedRules hasCallback
        { state := { st1 with requestFilter := out.requestFilter,
                              reloadedRules := out.reloadedRulesAfter }
          callbackFired := out.callbackFired
          storageReads := ids
          compileAttempts := 1
          failed := none }

/-- The suspension points of one createRequestFilter execution
(antibanner.js 424-486): finish the storage loads, run the engine
compilation, publish the new request filter. -/
inductive RebuildStep
  | loadRules
  | compileEngine
  | publishFilter
deriving DecidableEq

/-- A fresh createRequestFilter execution still has all three stages ahead. -/
def newRebuildTask : List RebuildStep :=
  [.loadRules, .compileEngine, .publishFilter]

/-- Interleaving state of the rebuild pipeline: the running flag, the
remaining stages of every createRequestFilter execution started so far, and
how many engine compilations and publications have been performed. -/
structure RebuildSys where
  applicationRunning : Bool
  tasks : List (List RebuildStep)
  compileCount : Nat
  publishCount : Nat
deriving DecidableEq

/-- Scheduler actions: a createRequestFilter invocation arriving, or the
cooperative scheduler resuming in-flight rebuild number i past its next
suspension point. -/
inductive RebuildAct
  | invoke
  | step (i : Nat)
deriving DecidableEq

/-- Resume in-flight rebuild number i: drop its next stage and record its
effect. A finished or absent task is left alone. -/
def doStep (sys : RebuildSys) (i : Nat) : RebuildSys :=
  match sys.tasks[i]? with
  | some (s :: rest) =>
    let sys1 := { sys with tasks := sys.tasks.set i rest }
    match s with
    | .loadRules => sys1
    | .compileEngine => { sys1 with compileCount := sys1.compileCount + 1 }
    | .publishFilter => { sys1 with publishCount := sys1.publishCount + 1 }
  | _ => sys

/-- The concurrency structure of createRequestFilter (antibanner.js
424-486): an invocation while running starts a fresh
load-compile-publish execution of its own — the source keeps no in-flight
flag and no owed-rebuild marker, so a new execution starts regardless of
any rebuild already mid-flight. An invocation while stopped starts
nothing. -/
def doAct (sys : RebuildSys) : RebuildAct → RebuildSys
  | .invoke =>
    if sys.applicationRunning = true then { sys with tasks := sys.tasks ++ [newRebuildTask] }
    else sys
  | .step i => doStep sys i

/-- A whole schedule of invocations and resumptions. -/
def runActs (sys : RebuildSys) (acts : List RebuildAct) : RebuildSys :=
  acts.foldl doAct sys

/-- The createRequestFilter invocations of a schedule. -/
def countInvokes (acts : List RebuildAct) : Nat :=
  acts.count RebuildAct.invoke

/-- Compilations an in-flight rebuild still has ahead. -/
def taskCompiles (t : List RebuildStep) : Nat :=
  t.count RebuildStep.compileEngine

/-- Compilations all in-flight rebuilds still have ahead. -/
def pendingCompiles (sys : RebuildSys) : Nat :=
  (sys.tasks.map taskCompiles).sum

/-- A quiescent running system: no rebuild in flight, nothing counted yet. -/
def sysInit : RebuildSys :=
  { applicationRunning := true, tasks := [], compileCount := 0, publishCount := 0 }

/-- A schedule with a first rebuild brought in flight (its loads finished),
two further createRequestFilter calls arriving during that in-flight window,
and every started rebuild then scheduled to completion. -/
def twoCallsDuringFlight : List RebuildAct :=
  [.invoke, .step 0, .invoke, .invoke, .step 0, .step 0,
   .step 1, .step 1, .step 1, .step 2, .step 2, .step 2]

/-- Identity conversion, standing in for the external rule converter at a
concrete input. -/
def convId : String → String := fun s => s

/-- A concrete trusted-filter catalog for witnesses. -/
def allTrusted : Nat → Bool := fun _ => true

/-- A concrete compiled-engine capability reporting no rules. -/
def zeroEngine : List (Nat × String × Bool) → Nat := fun _ => 0

/-- A concrete running, initialized state holding two active rules. -/
def sampleRunningState : AntiBannerState :=
  { requestFilter := { rulesCount := 2 }, applicationRunning := true
    applicationInitialized := true, reloadedRules := false, requestFilterInitTime := 1 }

/-- A concrete stopped state holding an empty request filter. -/
def sampleStoppedState : AntiBannerState :=
  { requestFilter := { rulesCount := 0 }, applicationRunning := false
    applicationInitialized := true, reloadedRules := false, requestFilterInitTime := 1 }

/-- A concrete storage whose every read fails. -/
def failingStore : Nat → Except String (Option (List String)) :=
  fun _ => .error "storage read failure"

/-- A concrete compiled-engine capability whose compilation fails. -/
def failingEngine : List (Nat × String × Bool) → Except String Nat :=
  fun _ => .error "compile failure"

/-- A concrete group catalog: every group enabled. -/
def allGroupsEnabled : Nat → Group :=
  fun gid => { groupId := gid, enabled := true }

/-- A concrete single-filter event sequence: two rules added, then one of
them removed. -/
def sampleEvents : List FilterEvent :=
  [{ event := .ADD_RULES, filter := some 1, rules := ["a.com##.ad", "b.com##.ad"] },
   { event := .REMOVE_RULE, filter := some 1, rules := ["a.com##.ad"] }]

theorem processSaveLoop_some (events : List FilterEvent) :
    ∀ l : List String, processSaveLoop (some l) events =
      some (events.foldl applyFilterEvent l) := by
  induction events with
  | nil => intro l; rfl
  | cons e es ih =>
    intro l
    simpa [processSaveLoop, List.foldl_cons] using ih (applyFilterEvent l e)

theorem processSaveLoop_ne_nil (stored : Option (List String)) (events : List FilterEvent)
    (h : events ≠ []) :
    processSaveLoop stored events = some (events.foldl applyFilterEvent (stored.getD [])) := by
  cases events with
  | nil => exact absurd rfl h
  | cons e es =>
    have h1 : processSaveLoop stored (e :: es) =
        processSaveLoop (some (applyFilterEvent (stored.getD []) e)) es := by
      simp [processSaveLoop, List.foldl_cons]
    rw [h1, processSaveLoop_some, List.foldl_cons]

/-- C2. For every nonempty sequence of events for a single filter within one
debounce window, processSaveFilterRulesToStorageEvents reads the store once
(its single stored argument), applies the events in arrival order (ADD_RULES
appends, REMOVE_RULE deletes all exact-text matches, UPDATE_FILTER_RULES
overwrites), converts the result exactly once at the end (the conversion
capability conv occurs once, outside the fold), and writes the store once:
the single written value equals the spec's sequential application followed
by one final normalization. -/
theorem processSave_eq_sequential (conv : String → String) (stored : Option (List String))
    (events : List FilterEvent) (h : events ≠ []) :
    processSaveFilterRulesToStorageEvents conv stored events =
      some (specSequentialPersist conv stored events) := by
  unfold processSaveFilterRulesToStorageEvents specSequentialPersist
  rw [processSaveLoop_ne_nil stored events h]

/-- Witness for C2 at a concrete input: add two rules then remove one. -/
theorem processSave_eq_sequential_witness :
    processSaveFilterRulesToStorageEvents convId (some []) sampleEvents =
      some (specSequentialPersist convId (some []) sampleEvents) :=
  processSave_eq_sequential convId (some []) sampleEvents (by decide)

/-- C5 counterexample. Processing an empty batch is NOT free of observable
effects: the claim that nothing observable happens (in particular no
notification) is false, because the no-rebuild branch still publishes the
REQUEST_FILTER_UPDATED notification. -/
theorem emptyBatch_counterexample :
    ¬ ((processEventsHistory []).savedFilters = []
      ∧ (processEventsHistory []).rebuildAfterPersistence = false
      ∧ (processEventsHistory []).notifiedWithoutRebuild = false) := by
  decide

/-- C5 as amended. Processing an empty batch performs no storage persistence
and schedules no rebuild, but it still notifies listeners with
REQUEST_FILTER_UPDATED (the else branch of processEventsHistory). -/
theorem emptyBatch_behavior :
    (processEventsHistory []).savedFilters = []
    ∧ (processEventsHistory []).rebuildAfterPersistence = false
    ∧ (processEventsHistory []).notifiedWithoutRebuild = true := by
  decide

/-- C7. Every stop() call sets the running state to stopped, replaces the
current engine handle with a fresh empty one — getRequestFilter afterwards
returns a filter with rule count 0 whatever the previous handle held — and
publishes REQUEST_FILTER_UPDATED carrying the new (zero) rule count. -/
theorem stop_fail_closed (st : AntiBannerState) :
    (stop st).1.applicationRunning = false
    ∧ (getRequestFilter (stop st).1).rulesCount = 0
    ∧ (stop st).2 = [LifeAction.notifyRequestFilterUpdated 0] := by
  simp [stop, getRequestFilter, getRequestFilterInfo]

/-- C4 counterexample. On an empty aggregated rule set (with the reload flag
clear) the claim predicts a skipped compilation and a triggered forced
update check; the code starts the engine anyway (on the empty lists) and
triggers no update check at all — the empty-map branch returns before the
reload logic. -/
theorem emptyRules_counterexample :
    ¬ ((onFiltersLoadedFromStorage allTrusted zeroEngine [] false true).engineListsStarted = none
      ∧ (onFiltersLoadedFromStorage allTrusted zeroEngine [] false
          true).outcome.reloadTriggered = true) := by
  decide

/-- C4 as amended. Whenever the aggregated rule set is empty except for an
empty user filter, the engine is still compiled (started on the built,
possibly empty, lists), an empty engine handle (rule count 0) is published
and announced, and NO forced remote update check is triggered — the
one-shot reloadedRules flag is left untouched; the forced check belongs to
the complementary branch (non-empty map compiling to zero rules). -/
theorem emptyRules_rebuild_behavior (isTrustedFilter : Nat → Bool)
    (rulesCountOf : List (Nat × String × Bool) → Nat)
    (rulesFilterMap : List (Nat × List String)) (reloadedRules hasCallback : Bool)
    (hempty : isEmptyRulesFilterMap rulesFilterMap = true)
    (hzero : rulesCountOf (buildEngineLists isTrustedFilter rulesFilterMap) = 0) :
    (onFiltersLoadedFromStorage isTrustedFilter rulesCountOf rulesFilterMap reloadedRules
        hasCallback).engineListsStarted = some (buildEngineLists isTrustedFilter rulesFilterMap)
    ∧ (onFiltersLoadedFromStorage isTrustedFilter rulesCountOf rulesFilterMap reloadedRules
        hasCallback).outcome.requestFilter.rulesCount = 0
    ∧ (onFiltersLoadedFromStorage isTrustedFilter rulesCountOf rulesFilterMap reloadedRules
        hasCallback).outcome.notifiedRulesCount = 0
    ∧ (onFiltersLoadedFromStorage isTrustedFilter rulesCountOf rulesFilterMap reloadedRules
        hasCallback).outcome.reloadTriggered = false
    ∧ (onFiltersLoadedFromStorage isTrustedFilter rulesCountOf rulesFilterMap reloadedRules
        hasCallback).outcome.reloadedRulesAfter = reloadedRules := by
  simp [onFiltersLoadedFromStorage, requestFilterInitialized, hempty, hzero]

/-- Witness for C4's amended theorem at the empty map. -/
theorem emptyRules_rebuild_behavior_witness :
    (onFiltersLoadedFromStorage allTrusted zeroEngine [] false
        true).engineListsStarted = some (buildEngineLists allTrusted [])
    ∧ (onFiltersLoadedFromStorage allTrusted zeroEngine [] false
        true).outcome.requestFilter.rulesCount = 0
    ∧ (onFiltersLoadedFromStorage allTrusted zeroEngine [] false
        true).outcome.notifiedRulesCount = 0
    ∧ (onFiltersLoadedFromStorage allTrusted zeroEngine [] false
        true).outcome.reloadTriggered = false
    ∧ (onFiltersLoadedFromStorage allTrusted zeroEngine [] false
        true).outcome.reloadedRulesAfter = false :=
  emptyRules_rebuild_behavior allTrusted zeroEngine [] false true rfl rfl

/-- C10. Every createRequestFilter invocation while the application is not
running (before start() or after stop()) fires the given callback and
returns without reading any storage, without attempting any compilation and
without touching the state — in particular the empty engine installed by
stop() is never replaced by a queued or late-arriving rebuild trigger. -/
theorem createRequestFilter_stopped_guard (st : AntiBannerState) (filters : List Filter)
    (getGroup : Nat → Group) (store : Nat → Except String (Option (List String)))
    (isTrustedFilter : Nat → Bool)
    (startEngine : List (Nat × String × Bool) → Except String Nat) (hasCallback : Bool)
    (h : st.applicationRunning = false) :
    createRequestFilterRun st filters getGroup store isTrustedFilter startEngine hasCallback =
      { state := st, callbackFired := hasCallback, storageReads := []
        compileAttempts := 0, failed := none } := by
  simp [createRequestFilterRun, h]

/-- Witness for C10 at a concrete stopped state. -/
theorem createRequestFilter_stopped_guard_witness :
    createRequestFilterRun sampleStoppedState [] allGroupsEnabled failingStore allTrusted
        failingEngine true =
      { state := sampleStoppedState, callbackFired := true, storageReads := []
        compileAttempts := 0, failed := none } :=
  createRequestFilter_stopped_guard sampleStoppedState [] allGroupsEnabled failingStore
    allTrusted failingEngine true rfl

/-- C9. If any storage read or the engine compilation of a rebuild fails,
the run aborts without replacing the live engine handle — the state's
requestFilter afterwards is exactly the one before — and no automatic
retry occurs (at most one compilation is ever attempted by the run). -/
theorem rebuild_failure_atomic (st : AntiBannerState) (filters : List Filter)
    (getGroup : Nat → Group) (store : Nat → Except String (Option (List String)))
    (isTrustedFilter : Nat → Bool)
    (startEngine : List (Nat × String × Bool) → Except String Nat) (hasCallback : Bool)
    (hfail : (createRequestFilterRun st filters getGroup store isTrustedFilter startEngine
        hasCallback).failed ≠ none) :
    (createRequestFilterRun st filters getGroup store isTrustedFilter startEngine
        hasCallback).state.requestFilter = st.requestFilter
    ∧ (createRequestFilterRun st filters getGroup store isTrustedFilter startEngine
        hasCallback).compileAttempts ≤ 1 := by
  unfold createRequestFilterRun at hfail ⊢
  by_cases hr : st.applicationRunning = false
  · simp [hr] at hfail
  · simp only [hr, if_false] at hfail ⊢
    cases hread : readAll store (loadFilterRulesIds filters getGroup) with
    | error e => simp [hread]
    | ok rulesFilterMap =>
      cases heng : startEngine (buildEngineLists isTrustedFilter rulesFilterMap) with
      | error e =>
        simp only [hread, heng]
        refine ⟨?_, le_refl 1⟩
        by_cases ht : st.requestFilterInitTime = 0 <;> simp [ht]
      | ok newRulesCount => simp [hread, heng] at hfail

/-- Witness for C9 at a concrete failing storage. -/
theorem rebuild_failure_atomic_witness :
    (createRequestFilterRun sampleRunningState [] allGroupsEnabled failingStore allTrusted
        failingEngine true).state.requestFilter = sampleRunningState.requestFilter
    ∧ (createRequestFilterRun sampleRunningState [] allGroupsEnabled failingStore allTrusted
        failingEngine true).compileAttempts ≤ 1 :=
  rebuild_failure_atomic sampleRunningState [] allGroupsEnabled failingStore allTrusted
    failingEngine true (by decide)

theorem lifeStep_initRun_count (st : AntiBannerState) (op : LifeOp) :
    (lifeStep st op).2.count LifeAction.initRun
        + (if st.applicationInitialized = true then 1 else 0)
      = (if (lifeStep st op).1.applicationInitialized = true then 1 else 0) := by
  cases op with
  | startOp =>
    by_cases hr : st.applicationRunning = true
    · simp [lifeStep, start, hr]
    · by_cases hi : st.applicationInitialized = false
      · simp [lifeStep, start, hr, hi]
      · have hi1 : st.applicationInitialized = true := by
          cases hx : st.applicationInitialized
          · exact absurd hx hi
          · rfl
        simp [lifeStep, start, hr, hi1]
  | stopOp => simp [lifeStep, stop]

theorem runLife_initRun_count (ops : List LifeOp) : ∀ st : AntiBannerState,
    (runLife st ops).2.count LifeAction.initRun
        + (if st.applicationInitialized = true then 1 else 0)
      = (if (runLife st ops).1.applicationInitialized = true then 1 else 0) := by
  induction ops with
  | nil => intro st; simp [runLife]
  | cons op rest ih =>
    intro st
    have hstep := lifeStep_initRun_count st op
    have htail := ih (lifeStep st op).1
    have hrun : runLife st (op :: rest) =
        ((runLife (lifeStep st op).1 rest).1,
          (lifeStep st op).2 ++ (runLife (lifeStep st op).1 rest).2) := rfl
    rw [hrun]
    simp only [List.count_append]
    omega

/-- C6. Calling start() while the application is already running fires the
completion callback exactly once and performs none of the initialization or
rebuild side effects of a fresh start (the state is returned untouched);
two such calls fire the callback once each with the state still untouched;
and over every sequence of lifecycle calls from an uninitialized state, the
one-time initialization runs at most once in the process lifetime. -/
theorem start_noop_when_running (st : AntiBannerState) (h : st.applicationRunning = true) :
    start st = (st, [LifeAction.callbackFired])
    ∧ (start (start st).1).2 = [LifeAction.callbackFired]
    ∧ (start (start st).1).1 = st
    ∧ (∀ (st0 : AntiBannerState) (ops : List LifeOp), st0.applicationInitialized = false →
        (runLife st0 ops).2.count LifeAction.initRun ≤ 1) := by
  have h1 : start st = (st, [LifeAction.callbackFired]) := by simp [start, h]
  refine ⟨h1, by rw [h1]; simp [start, h], by rw [h1]; simp [start, h], ?_⟩
  intro st0 ops h0
  have h1 := runLife_initRun_count ops st0
  have h2 : (if st0.applicationInitialized = true then 1 else 0) = 0 := by simp [h0]
  rw [h2] at h1
  split at h1 <;> omega

/-- Witness for C6 at a concrete running state. -/
theorem start_noop_when_running_witness :
    start sampleRunningState = (sampleRunningState, [LifeAction.callbackFired])
    ∧ (start (start sampleRunningState).1).2 = [LifeAction.callbackFired]
    ∧ (start (start sampleRunningState).1).1 = sampleRunningState
    ∧ (∀ (st0 : AntiBannerState) (ops : List LifeOp), st0.applicationInitialized = false →
        (runLife st0 ops).2.count LifeAction.initRun ≤ 1) :=
  start_noop_when_running sampleRunningState rfl

theorem mem_fst_buildRulesFilterMap (store : Nat → Option (List String)) (ids : List Nat)
    (fid : Nat) (h : fid ∈ (buildRulesFilterMap store ids).map Prod.fst) : fid ∈ ids := by
  unfold buildRulesFilterMap at h
  simp only [List.mem_map, List.mem_filterMap] at h
  obtain ⟨p, ⟨a, ha, heq⟩, hfst⟩ := h
  rcases Option.map_eq_some'.1 heq with ⟨r, _, hp⟩
  rw [← hp] at hfst
  simpa [← hfst] using ha

/-- C8. During a rebuild, rule text is read from storage exactly for the
filters satisfying filter.enabled and group.enabled, plus the user filter
unconditionally (the read-identifier list is characterized by that
membership condition), and the loaded rules map — the sole input to
compilation, which starts only after the whole map is built — holds entries
only for those identifiers, so disabled filters and filters of disabled
groups contribute nothing to the compiled engine. -/
theorem loadFilterRules_scope (filters : List Filter) (getGroup : Nat → Group)
    (store : Nat → Option (List String)) (fid : Nat) :
    (fid ∈ loadFilterRulesIds filters getGroup ↔
      ((∃ f ∈ filters, f.filterId = fid ∧ f.enabled = true ∧ (getGroup f.groupId).enabled = true)
        ∨ fid = USER_FILTER_ID))
    ∧ (fid ∈ (buildRulesFilterMap store (loadFilterRulesIds filters getGroup)).map Prod.fst →
        fid ∈ loadFilterRulesIds filters getGroup) := by
  constructor
  · unfold loadFilterRulesIds
    simp only [List.mem_append, List.mem_map, List.mem_filter, List.mem_singleton,
      Bool.and_eq_true]
    constructor
    · rintro (⟨f, ⟨hf, he, hg⟩, hfid⟩ | hu)
      · exact Or.inl ⟨f, hf, hfid, he, hg⟩
      · exact Or.inr hu
    · rintro (⟨f, hf, hfid, he, hg⟩ | hu)
      · exact Or.inl ⟨f, ⟨hf, he, hg⟩, hfid⟩
      · exact Or.inr hu
  · exact mem_fst_buildRulesFilterMap store (loadFilterRulesIds filters getGroup) fid

theorem lookupEvents_push_self (m : List (Nat × List FilterEvent)) (fid : Nat)
    (e : FilterEvent) :
    lookupEvents (pushEventByFilter m fid e) fid =
      some ((lookupEvents m fid).getD [] ++ [e]) := by
  induction m with
  | nil => simp [pushEventByFilter, lookupEvents]
  | cons p rest ih =>
    obtain ⟨k, es⟩ := p
    by_cases hk : k = fid
    · subst hk
      simp [pushEventByFilter, lookupEvents, List.find?_cons]
    · simp only [pushEventByFilter, if_neg hk]
      have hbeq : (k == fid) = false := by simpa using hk
      simp [lookupEvents, List.find?_cons, hbeq] at ih ⊢
      exact ih

theorem lookupEvents_push_other (m : List (Nat × List FilterEvent)) (fid fid1 : Nat)
    (e : FilterEvent) (hne : fid1 ≠ fid) :
    lookupEvents (pushEventByFilter m fid e) fid1 = lookupEvents m fid1 := by
  induction m with
  | nil =>
    have hbeq : (fid == fid1) = false := by simpa using (Ne.symm hne)
    simp [pushEventByFilter, lookupEvents, List.find?_cons, hbeq]
  | cons p rest ih =>
    obtain ⟨k, es⟩ := p
    by_cases hk : k = fid
    · subst hk
      have hbeq : (k == fid1) = false := by simpa using (Ne.symm hne)
      simp [pushEventByFilter, lookupEvents, List.find?_cons, hbeq]
    · simp only [pushEventByFilter, if_neg hk]
      by_cases hk1 : k = fid1
      · subst hk1
        simp [lookupEvents, List.find?_cons]
      · have hbeq : (k == fid1) = false := by simpa using hk1
        simp [lookupEvents, List.find?_cons, hbeq] at ih ⊢
        exact ih

theorem mem_keysOf_push (m : List (Nat × List FilterEvent)) (fid : Nat) (e : FilterEvent)
    (a : Nat) (h : a ∈ keysOf (pushEventByFilter m fid e)) : a ∈ keysOf m ∨ a = fid := by
  induction m with
  | nil =>
    simp [pushEventByFilter, keysOf] at h
    exact Or.inr h
  | cons p rest ih =>
    obtain ⟨k, es⟩ := p
    by_cases hk : k = fid
    · subst hk
      simp [pushEventByFilter, keysOf] at h ⊢
      tauto
    · simp only [pushEventByFilter, if_neg hk] at h
      simp [keysOf] at h ⊢
      rcases h with h | h
      · exact Or.inl (Or.inl h)
      · rcases ih (by simpa [keysOf] using h) with h1 | h1
        · exact Or.inl (Or.inr (by simpa [keysOf] using h1))
        · exact Or.inr h1

theorem nodup_keysOf_push (m : List (Nat × List FilterEvent)) (fid : Nat) (e : FilterEvent)
    (h : (keysOf m).Nodup) : (keysOf (pushEventByFilter m fid e)).Nodup := by
  induction m with
  | nil => simp [pushEventByFilter, keysOf]
  | cons p rest ih =>
    obtain ⟨k, es⟩ := p
    unfold keysOf at h ⊢
    simp only [List.map_cons, List.nodup_cons] at h
    by_cases hk : k = fid
    · subst hk
      rw [show pushEventByFilter ((k, es) :: rest) k e = (k, es ++ [e]) :: rest from by
        simp [pushEventByFilter]]
      simp only [List.map_cons, List.nodup_cons]
      exact ⟨h.1, h.2⟩
    · simp only [pushEventByFilter, if_neg hk, List.map_cons, List.nodup_cons]
      refine ⟨?_, ih h.2⟩
      intro hmem
      rcases mem_keysOf_push rest fid e k hmem with h1 | h1
      · exact h.1 h1
      · exact hk h1

theorem byFilterFold_cons (m : List (Nat × List FilterEvent)) (fe : FilterEvent)
    (rest : List FilterEvent) :
    byFilterFold m (fe :: rest) =
      byFilterFold
        (match fe.filter with
          | none => m
          | some fid => pushEventByFilter m fid fe) rest := rfl

theorem lookupEvents_byFilterFold (batch : List FilterEvent) :
    ∀ (m : List (Nat × List FilterEvent)) (fid : Nat),
      lookupEvents (byFilterFold m batch) fid =
        (if batch.filter (fun e => e.filter == some fid) = [] then lookupEvents m fid
         else some ((lookupEvents m fid).getD []
            ++ batch.filter (fun e => e.filter == some fid))) := by
  induction batch with
  | nil => intro m fid; simp [byFilterFold]
  | cons fe rest ih =>
    intro m fid
    rw [byFilterFold_cons]
    cases hfe : fe.filter with
    | none =>
      have hpred : (fe.filter == some fid) = false := by simp [hfe]
      simp only [List.filter_cons, hpred, if_false, Bool.false_eq_true]
      exact ih m fid
    | some fid0 =>
      by_cases h0 : fid0 = fid
      · subst h0
        have hpred : (fe.filter == some fid0) = true := by simp [hfe]
        simp only [List.filter_cons, hpred, if_true]
        rw [ih (pushEventByFilter m fid0 fe) fid0]
        rw [lookupEvents_push_self m fid0 fe]
        by_cases hrest : rest.filter (fun e => e.filter == some fid0) = []
        · simp [hrest]
        · simp [hrest]
      · have hpred : (fe.filter == some fid) = false := by simp [hfe, h0]
        simp only [List.filter_cons, hpred, if_false, Bool.false_eq_true]
        rw [ih (pushEventByFilter m fid0 fe) fid]
        rw [lookupEvents_push_other m fid0 fid fe (Ne.symm h0)]

theorem nodup_keysOf_byFilterFold (batch : List FilterEvent) :
    ∀ m : List (Nat × List FilterEvent), (keysOf m).Nodup →
      (keysOf (byFilterFold m batch)).Nodup := by
  induction batch with
  | nil => intro m h; exact h
  | cons fe rest ih =>
    intro m h
    rw [byFilterFold_cons]
    cases hfe : fe.filter with
    | none => exact ih m h
    | some fid0 => exact ih (pushEventByFilter m fid0 fe) (nodup_keysOf_push m fid0 fe h)

theorem mem_of_lookupEvents (m : List (Nat × List FilterEvent)) (fid : Nat)
    (evs : List FilterEvent) (h : lookupEvents m fid = some evs) : (fid, evs) ∈ m := by
  unfold lookupEvents at h
  cases hf : m.find? (fun p => p.1 == fid) with
  | none => simp [hf] at h
  | some q =>
    rw [hf] at h
    simp only [Option.map_some'] at h
    have hq1 := List.find?_some hf
    have hmem : q ∈ m := List.mem_of_find?_eq_some hf
    have : q = (fid, evs) := by
      obtain ⟨q1, q2⟩ := q
      simp at hq1 h
      simp [hq1, h]
    rw [← this]
    exact hmem

theorem lookupEvents_of_mem (m : List (Nat × List FilterEvent)) (fid : Nat)
    (evs : List FilterEvent) (hnd : (keysOf m).Nodup) (h : (fid, evs) ∈ m) :
    lookupEvents m fid = some evs := by
  induction m with
  | nil => simp at h
  | cons p rest ih =>
    obtain ⟨k, es⟩ := p
    unfold keysOf at hnd
    simp only [List.map_cons, List.nodup_cons] at hnd
    rcases List.mem_cons.1 h with h1 | h1
    · have hk : k = fid := by
        have := congrArg Prod.fst h1.symm
        simpa using this
      have hes : es = evs := by
        have := congrArg Prod.snd h1.symm
        simpa using this
      subst hk; subst hes
      simp [lookupEvents, List.find?_cons]
    · have hk : k ≠ fid := by
        intro hkf
        subst hkf
        exact hnd.1 (by
          have : (k, evs) ∈ rest := h1
          exact List.mem_map.2 ⟨(k, evs), this, rfl⟩)
      have hbeq : (k == fid) = false := by simpa using hk
      simp only [lookupEvents, List.find?_cons, hbeq]
      exact ih hnd.2 h1

theorem lookupEvents_eventsByFilter (batch : List FilterEvent) (fid : Nat) :
    lookupEvents (eventsByFilter batch) fid =
      (if batch.filter (fun e => e.filter == some fid) = [] then none
       else some (batch.filter (fun e => e.filter == some fid))) := by
  unfold eventsByFilter
  rw [lookupEvents_byFilterFold batch [] fid]
  simp [lookupEvents]

/-- C3. Batch classification: the processed batch schedules a rebuild
(createRequestFilter after all the persistence promises settle) exactly when
at least one event is of a rebuild-triggering kind (filter or group
enable/disable, full rule replacement, user rules update); a batch holding
only storage-only events schedules no rebuild and the live engine handle
stays untouched (the listeners are notified instead); and the per-filter
persistence groups are exactly the filters with at least one
storage-mutating event, each carrying all its batch events in arrival
order. -/
theorem processEventsHistory_classification (batch : List FilterEvent) :
    ((processEventsHistory batch).rebuildAfterPersistence = true ↔
      ∃ e ∈ batch, e.event ∈ UPDATE_REQUEST_FILTER_EVENTS)
    ∧ ((processEventsHistory batch).notifiedWithoutRebuild = true ↔
      ∀ e ∈ batch, e.event ∉ UPDATE_REQUEST_FILTER_EVENTS)
    ∧ (∀ (fid : Nat) (evs : List FilterEvent),
        (fid, evs) ∈ (processEventsHistory batch).savedFilters ↔
          (evs = batch.filter (fun e => e.filter == some fid) ∧ evs ≠ []
            ∧ evs.any isSaveRulesToStorageEvent = true)) := by
  have hnd : (keysOf (eventsByFilter batch)).Nodup :=
    nodup_keysOf_byFilterFold batch [] (by simp [keysOf])
  refine ⟨?_, ?_, ?_⟩
  · simp [processEventsHistory, List.any_eq_true, isUpdateRequestFilterEvent]
  · simp [processEventsHistory, List.any_eq_false, isUpdateRequestFilterEvent]
  · intro fid evs
    have hsaved : (processEventsHistory batch).savedFilters =
        (eventsByFilter batch).filter (fun p => p.2.any isSaveRulesToStorageEvent) := rfl
    rw [hsaved]
    constructor
    · intro hmem
      have hmem1 := (List.mem_filter.1 hmem).1
      have hq := (List.mem_filter.1 hmem).2
      have hlook := lookupEvents_of_mem (eventsByFilter batch) fid evs hnd hmem1
      rw [lookupEvents_eventsByFilter batch fid] at hlook
      by_cases hl : batch.filter (fun e => e.filter == some fid) = []
      · rw [if_pos hl] at hlook
        exact absurd hlook (by simp)
      · rw [if_neg hl] at hlook
        have hevs : evs = batch.filter (fun e => e.filter == some fid) :=
          (Option.some.inj hlook).symm
        exact ⟨hevs, by rw [hevs]; exact hl, by simpa using hq⟩
    · rintro ⟨hevs, hne, hq⟩
      have hlook : lookupEvents (eventsByFilter batch) fid = some evs := by
        rw [lookupEvents_eventsByFilter batch fid, if_neg (by rw [← hevs]; exact hne), ← hevs]
      exact List.mem_filter.2 ⟨mem_of_lookupEvents _ _ _ hlook, by simpa using hq⟩

theorem sum_map_set (f : List RebuildStep → Nat) :
    ∀ (l : List (List RebuildStep)) (i : Nat) (a b : List RebuildStep),
      l[i]? = some a → ((l.set i b).map f).sum + f a = (l.map f).sum + f b := by
  intro l
  induction l with
  | nil => intro i a b h; simp at h
  | cons x xs ih =>
    intro i a b h
    cases i with
    | zero =>
      simp only [List.getElem?_cons_zero, Option.some.injEq] at h
      subst h
      simp only [List.set, List.map_cons, List.sum_cons]
      omega
    | succ n =>
      simp only [List.getElem?_cons_succ] at h
      have := ih n a b h
      simp only [List.set, List.map_cons, List.sum_cons]
      omega

theorem doStep_conserves (sys : RebuildSys) (i : Nat) :
    (doStep sys i).compileCount + pendingCompiles (doStep sys i) =
      sys.compileCount + pendingCompiles sys
    ∧ (doStep sys i).applicationRunning = sys.applicationRunning := by
  unfold doStep
  cases h : sys.tasks[i]? with
  | none => simp
  | some t =>
    cases t with
    | nil => simp
    | cons s rest =>
      have hsum := sum_map_set taskCompiles sys.tasks i (s :: rest) rest h
      cases s with
      | loadRules =>
        refine ⟨?_, rfl⟩
        have h2 : taskCompiles (RebuildStep.loadRules :: rest) = taskCompiles rest := by
          simp [taskCompiles, List.count_cons]
        rw [h2] at hsum
        dsimp only [pendingCompiles]
        omega
      | compileEngine =>
        refine ⟨?_, rfl⟩
        have h2 : taskCompiles (RebuildStep.compileEngine :: rest) = taskCompiles rest + 1 := by
          simp [taskCompiles, List.count_cons]
        rw [h2] at hsum
        dsimp only [pendingCompiles]
        omega
      | publishFilter =>
        refine ⟨?_, rfl⟩
        have h2 : taskCompiles (RebuildStep.publishFilter :: rest) = taskCompiles rest := by
          simp [taskCompiles, List.count_cons]
        rw [h2] at hsum
        dsimp only [pendingCompiles]
        omega

theorem runActs_conservation (acts : List RebuildAct) : ∀ sys : RebuildSys,
    sys.applicationRunning = true →
    ((runActs sys acts).compileCount + pendingCompiles (runActs sys acts) =
      sys.compileCount + pendingCompiles sys + countInvokes acts
    ∧ (runActs sys acts).applicationRunning = true) := by
  induction acts with
  | nil =>
    intro sys h
    exact ⟨by simp [runActs, countInvokes], by simpa [runActs] using h⟩
  | cons a rest ih =>
    intro sys h
    have hstep : runActs sys (a :: rest) = runActs (doAct sys a) rest := rfl
    cases a with
    | invoke =>
      have hd : doAct sys .invoke = { sys with tasks := sys.tasks ++ [newRebuildTask] } := by
        simp [doAct, h]
      have htail := ih (doAct sys .invoke) (by rw [hd]; exact h)
      rw [hstep]
      refine ⟨?_, htail.2⟩
      have h1 := htail.1
      have h2 : pendingCompiles (doAct sys .invoke) = pendingCompiles sys + 1 := by
        rw [hd]
        simp [pendingCompiles, taskCompiles, newRebuildTask, List.count_cons]
      have h3 : (doAct sys .invoke).compileCount = sys.compileCount := by rw [hd]
      have h4 : countInvokes (RebuildAct.invoke :: rest) = countInvokes rest + 1 := by
        simp [countInvokes, List.count_cons]
      omega
    | step i =>
      have hc := doStep_conserves sys i
      have htail := ih (doStep sys i) (by rw [hc.2]; exact h)
      rw [hstep]
      have hdo : doAct sys (.step i) = doStep sys i := rfl
      rw [hdo]
      refine ⟨?_, htail.2⟩
      have h1 := htail.1
      have h4 : countInvokes (RebuildAct.step i :: rest) = countInvokes rest := by
        simp [countInvokes, List.count_cons]
      have h5 := hc.1
      omega

/-- C1 counterexample. The claimed single-flight collapse is false: in the
schedule twoCallsDuringFlight a first rebuild is brought in flight and two
further createRequestFilter calls arrive during its in-flight window, yet
after all rebuilds complete three compilations have run — not the two
(first plus exactly one additional) the claim predicts. -/
theorem singleFlight_counterexample :
    (runActs sysInit twoCallsDuringFlight).compileCount = 3
    ∧ ¬ (runActs sysInit twoCallsDuringFlight).compileCount = 2 := by
  decide

/-- C1 as amended. createRequestFilter has no single-flight guard and no
owed-rebuild marker: every invocation while the application is running
starts a compilation of its own, so from a quiescent running system, once
every started rebuild has finished compiling, the number of compilations
equals the number of invocations — two calls issued during an in-flight
rebuild cause two additional compilations, never one. -/
theorem rebuild_compiles_per_invocation (sys : RebuildSys) (acts : List RebuildAct)
    (hrun : sys.applicationRunning = true) (hquiet : sys.tasks = [])
    (hcount : sys.compileCount = 0)
    (hdone : pendingCompiles (runActs sys acts) = 0) :
    (runActs sys acts).compileCount = countInvokes acts := by
  have h := (runActs_conservation acts sys hrun).1
  have h0 : pendingCompiles sys = 0 := by simp [pendingCompiles, hquiet]
  omega

/-- Witness for C1's amended theorem on the concrete schedule. -/
theorem rebuild_compiles_per_invocation_witness :
    (runActs sysInit twoCallsDuringFlight).compileCount = countInvokes twoCallsDuringFlight :=
  rebuild_compiles_per_invocation sysInit twoCallsDuringFlight rfl rfl rfl (by decide)

end AntiBanner
